import Mathlib

/-!
# Host callbacks of the team project (`src/main.cpp`)

A shallow embedding of the GLFW callbacks of `src/main.cpp` (`update`, `reshape`,
`keyboard`, `mouse`, `motion`) as pure functions on an explicit host state, followed by
the theorems about them.

`main.cpp` includes headers that are not part of the sources at hand (`cgmath.h`, `cgut.h`,
`camera.h`, `trackball.h`).  What the callbacks use from them is either a parameter of the
embedding (the record `Env`) or a definition modelled from the specification and marked so.
-/

namespace TeamProject

/-! ## Constants of `glfw3.h` used by the callbacks -/

/-- The action `GLFW_RELEASE`. -/
def GLFW_RELEASE : Int := 0
/-- The action `GLFW_PRESS`. -/
def GLFW_PRESS : Int := 1
/-- The action `GLFW_REPEAT`. -/
def GLFW_REPEAT : Int := 2
/-- The button `GLFW_MOUSE_BUTTON_LEFT`. -/
def GLFW_MOUSE_BUTTON_LEFT : Int := 0
/-- The button `GLFW_MOUSE_BUTTON_RIGHT`. -/
def GLFW_MOUSE_BUTTON_RIGHT : Int := 1
/-- The button `GLFW_MOUSE_BUTTON_MIDDLE`. -/
def GLFW_MOUSE_BUTTON_MIDDLE : Int := 2
/-- The modifier bit `GLFW_MOD_SHIFT`. -/
def GLFW_MOD_SHIFT : Int := 1
/-- The modifier bit `GLFW_MOD_CONTROL`. -/
def GLFW_MOD_CONTROL : Int := 2
/-- The key `GLFW_KEY_ESCAPE`. -/
def GLFW_KEY_ESCAPE : Int := 256
/-- The key `GLFW_KEY_Q`. -/
def GLFW_KEY_Q : Int := 81
/-- The key `GLFW_KEY_H`. -/
def GLFW_KEY_H : Int := 72
/-- The key `GLFW_KEY_F1`. -/
def GLFW_KEY_F1 : Int := 290
/-- The key `GLFW_KEY_Z`. -/
def GLFW_KEY_Z : Int := 90

/-! ## Data model -/

/-- The type `ivec2` of `window_size`: a pair of C `int`s.  The callbacks only store and
convert the two components, so they are unbounded integers here. -/
structure ivec2 where
  x : Int
  y : Int
  deriving DecidableEq, Repr

/-- Values of the C type `float` (IEEE-754 binary32), as sign and magnitude: a finite value
`fin neg mag` is `mag` or, when `neg` is set, `-mag`, so that `fin true 0` is `-0.0`; the
infinities and NaN are kept apart.  The magnitude is an exact rational; the operations below
round their results to binary32. -/
inductive float where
  | fin (neg : Bool) (mag : ℚ)
  | inf (neg : Bool)
  | nan
  deriving DecidableEq

namespace float

/-- Whether `2 ^ e ≤ n / d`, for a positive denominator `d`; decided on natural numbers. -/
def le_pow2 (e : Int) (n d : Nat) : Bool := decide (d * 2 ^ e.toNat ≤ n * 2 ^ (-e).toNat)

/-- The greatest exponent `k ≤ e` with `2 ^ k ≤ n / d`, searched downwards for at most `fuel`
steps; when no exponent is found the result is `e - fuel`. -/
def expo : Nat → Int → Nat → Nat → Int
  | 0, e, _, _ => e
  | fuel + 1, e, n, d => if le_pow2 e n d then e else expo fuel (e - 1) n d

/-- The integer nearest to `num / den`, a tie going to the even one. -/
def nearest_even (num den : Nat) : Nat :=
  if 2 * (num % den) < den then num / den
  else if den < 2 * (num % den) then num / den + 1
  else if num / den % 2 = 0 then num / den
  else num / den + 1

/-- The multiple of `2 ^ c` nearest to `n / d`, ties to even, or `none` when it reaches
`2 ^ 128`, the overflow threshold of binary32. -/
def round_at (c : Int) (n d : Nat) : Option ℚ :=
  if 2 ^ 128 * 2 ^ (-c).toNat ≤ nearest_even (n * 2 ^ (-c).toNat) (d * 2 ^ c.toNat) * 2 ^ c.toNat
  then none
  else some (((nearest_even (n * 2 ^ (-c).toNat) (d * 2 ^ c.toNat) * 2 ^ c.toNat : Nat) : ℚ)
    / ((2 ^ (-c).toNat : Nat) : ℚ))

/-- The binary32 magnitude nearest to `n / d` (round to nearest, ties to even): the exponent
is the one of `n / d`, between `-126` (subnormal numbers) and `127`, and the result is a
multiple of the unit in the last of 24 significand bits; `none` is overflow. -/
def round_mag (n d : Nat) : Option ℚ := round_at (expo 253 127 n d - 23) n d

/-- The binary32 value of sign `neg` nearest to the magnitude `n / d`; an overflow gives the
infinity of that sign. -/
def rnd (neg : Bool) (n d : Nat) : float :=
  match round_mag n d with
  | some v => fin neg v
  | none => inf neg

/-- The conversion `float(i)` of an `int`, rounded to binary32. -/
def ofInt (i : Int) : float := rnd (decide (i < 0)) i.natAbs 1

/-- The IEEE-754 quotient `a / b`, rounded to binary32.  The sign of the result is the
exclusive or of the signs; a finite non-zero value over a zero is an infinity, zero over
zero and every quotient with a NaN or two infinities is NaN. -/
def div : float → float → float
  | fin s a, fin t b =>
      if b = 0 then (if a = 0 then nan else inf (s != t))
      else rnd (s != t) (a / b).num.natAbs (a / b).den
  | fin s _, inf t => fin (s != t) 0
  | inf s, fin t _ => inf (s != t)
  | _, _ => nan

/-- The comparison `a == 0.0f`. -/
def is_zero : float → Bool
  | fin _ q => decide (q = 0)
  | _ => false

/-- The comparison `a > 0.0f`. -/
def is_pos : float → Bool
  | fin false q => decide (0 < q)
  | inf false => true
  | _ => false

end float

/-- Modelled from the spec: `camera.h` is missing.  The camera of the data model: eye
position, target point, up vector, field of view, aspect ratio, near and far plane, and the
derived view and projection matrices.  The field names `fovy`, `aspect_ratio`, `dNear`,
`dFar`, `view_matrix` and `projection_matrix` are the ones `main.cpp` uses. -/
structure camera (vec3 mat4 : Type) where
  eye : vec3
  target : vec3
  up : vec3
  fovy : float
  aspect_ratio : float
  dNear : float
  dFar : float
  view_matrix : mat4
  projection_matrix : mat4
  deriving DecidableEq

/-- The three interaction modes `main.cpp` passes to `tb.begin`. -/
inductive Mode where
  | ROTATING
  | PANNING
  | ZOOMING
  deriving DecidableEq, Repr

/-- Modelled from the spec: `trackball.h` is missing.  The trackball: the interaction mode
(`none` is the state Idle), the captured initial view matrix and the initial cursor position
of the session, and the last-known view matrix, which is the matrix most recently captured
by `begin` or returned by `update`. -/
structure trackball (vec2 mat4 : Type) where
  mode : Option Mode
  view_matrix0 : mat4
  m0 : vec2
  last : mat4
  deriving DecidableEq

namespace trackball

variable {vec2 mat4 : Type}

/-- Modelled from the spec: `isTracking()` is a pure query, true iff the state is not
Idle. -/
def is_tracking (tb : trackball vec2 mat4) : Bool := tb.mode.isSome

/-- Modelled from the spec: `begin(currentViewMatrix, initialNdcPosition, mode)` is valid
only from Idle, where it moves to the requested mode and captures the view matrix and the
position.  A call while a session is active is ignored. -/
def begin (tb : trackball vec2 mat4) (view_matrix : mat4) (m : vec2) (mode : Mode) :
    trackball vec2 mat4 :=
  if tb.is_tracking then tb
  else { mode := some mode, view_matrix0 := view_matrix, m0 := m, last := view_matrix }

/-- Modelled from the spec: `end()` moves to Idle, and is idempotent when already Idle.  Of
the session only the last-known view matrix is still read afterwards. -/
def end_ (tb : trackball vec2 mat4) : trackball vec2 mat4 :=
  { tb with mode := none }

/-- Modelled from the spec: the matrix that `update(currentNdcPosition)` returns.  During a
session it is computed from the captured initial view matrix, the captured initial position
and the current position, by the semantics `math` of the session's mode; while Idle it is the
last-known view matrix. -/
def update (math : Mode → mat4 → vec2 → vec2 → mat4) (tb : trackball vec2 mat4) (m : vec2) :
    mat4 :=
  match tb.mode with
  | none => tb.last
  | some mode => math mode tb.view_matrix0 tb.m0 m

/-- Modelled from the spec: the trackball after `update(currentNdcPosition)`.  The captured
initial state is not changed; the returned matrix becomes the last-known view matrix. -/
def updated (math : Mode → mat4 → vec2 → vec2 → mat4) (tb : trackball vec2 mat4) (m : vec2) :
    trackball vec2 mat4 :=
  { tb with last := tb.update math m }

end trackball

/-- What `main.cpp` takes from the headers that are not at hand: the vector and matrix
types, the type `double` of cursor coordinates, and the functions and initial values the
callbacks use. -/
structure Env where
  /-- The type `vec2`. -/
  vec2 : Type
  /-- The type `vec3`. -/
  vec3 : Type
  /-- The type `mat4`. -/
  mat4 : Type
  /-- The type `double`. -/
  double : Type
  /-- The function `cursor_to_ndc(dvec2, ivec2)`. -/
  cursor_to_ndc : double × double → ivec2 → vec2
  /-- The function `mat4::perspective(fovy, aspect_ratio, dNear, dFar)`. -/
  perspective : float → float → float → float → mat4
  /-- The look-at construction of a view matrix from eye, target and up. -/
  look_at : vec3 → vec3 → vec3 → mat4
  /-- The mode semantics of the trackball: mode, captured view matrix, captured position
  and current position give the new view matrix. -/
  trackball_math : Mode → mat4 → vec2 → vec2 → mat4
  /-- The default-constructed `camera()`. -/
  camera_default : camera vec3 mat4
  /-- The default-constructed `mat4()`. -/
  mat4_default : mat4
  /-- The default-constructed `vec2()`. -/
  vec2_default : vec2
  /-- The result of `cg_default_window_size()`. -/
  cg_default_window_size : ivec2

/-- A call of a `trackball` member function made by a callback. -/
inductive Call (vec2 mat4 : Type) where
  | begin (view_matrix : mat4) (m : vec2) (mode : Mode)
  | end_
  | update (m : vec2)
  deriving DecidableEq

/-- An entry of the call trace: the call, and what `tb.is_tracking()` was when it was
made. -/
structure Logged (vec2 mat4 : Type) where
  tracking : Bool
  call : Call vec2 mat4
  deriving DecidableEq

/-- The global state of `main.cpp` that the callbacks read and write: `window_size`, `cam`,
`tb`, the close flag of the window, and (as a ghost field) the trace of the trackball calls
made so far, oldest first. -/
structure Host (E : Env) where
  window_size : ivec2
  cam : camera E.vec3 E.mat4
  tb : trackball E.vec2 E.mat4
  should_close : Bool
  calls : List (Logged E.vec2 E.mat4)

/-! ## The callbacks of `main.cpp` -/

section callbacks

variable {E : Env}

/-- The host state at program start: the globals `window_size`, `cam` and `tb` as their
initialisers leave them, the window open and no trackball call made. -/
def Host.init (E : Env) : Host E :=
  { window_size := E.cg_default_window_size
    cam := E.camera_default
    tb :=
      { mode := none
        view_matrix0 := E.mat4_default
        m0 := E.vec2_default
        last := E.mat4_default }
    should_close := false
    calls := [] }

/-- The statement `tb.begin(view_matrix, npos, mode)`: the trackball member is run and the
call is recorded. -/
def call_begin (s : Host E) (view_matrix : E.mat4) (npos : E.vec2) (mode : Mode) : Host E :=
  { s with
    tb := s.tb.begin view_matrix npos mode
    calls := s.calls ++ [⟨s.tb.is_tracking, Call.begin view_matrix npos mode⟩] }

/-- The statement `tb.end()`: the trackball member is run and the call is recorded. -/
def call_end (s : Host E) : Host E :=
  { s with
    tb := s.tb.end_
    calls := s.calls ++ [⟨s.tb.is_tracking, Call.end_⟩] }

/-- The function `update()` of `main.cpp`, lines 37-49: the aspect ratio is
`window_size.x/float(window_size.y)` and the projection matrix is recomputed from it.  The
read of the clock and the upload of `cam.view_matrix` and `cam.projection_matrix` to the
shader program change nothing of the host state. -/
def update (s : Host E) : Host E :=
  let aspect_ratio := float.div (float.ofInt s.window_size.x) (float.ofInt s.window_size.y)
  { s with
    cam := { s.cam with
      aspect_ratio := aspect_ratio
      projection_matrix := E.perspective s.cam.fovy aspect_ratio s.cam.dNear s.cam.dFar } }

/-- The function `reshape(window, width, height)` of `main.cpp`, lines 68-74. -/
def reshape (s : Host E) (width height : Int) : Host E :=
  { s with window_size := ⟨width, height⟩ }

/-- The function `keyboard(window, key, scancode, action, mods)` of `main.cpp`,
lines 85-93.  Printing the help text changes nothing of the host state. -/
def keyboard (s : Host E) (key _scancode action _mods : Int) : Host E :=
  if action = GLFW_PRESS then
    if key = GLFW_KEY_ESCAPE ∨ key = GLFW_KEY_Q then { s with should_close := true }
    else if key = GLFW_KEY_H ∨ key = GLFW_KEY_F1 then s
    else if key = GLFW_KEY_Z then { s with cam := E.camera_default }
    else s
  else s

/-- The function `mouse(window, button, action, mods)` of `main.cpp`, lines 95-126.  The
argument `pos` is the cursor position that `glfwGetCursorPos` returns; the `printf` of the
first block changes nothing of the host state. -/
def mouse (s : Host E) (pos : E.double × E.double) (button action mods : Int) : Host E :=
  if (button = GLFW_MOUSE_BUTTON_LEFT ∧ Int.land mods GLFW_MOD_SHIFT ≠ 0)
      ∨ button = GLFW_MOUSE_BUTTON_RIGHT then
    let npos := E.cursor_to_ndc pos s.window_size
    if action = GLFW_PRESS then call_begin s s.cam.view_matrix npos Mode.ZOOMING
    else if action = GLFW_RELEASE then call_end s
    else s
  else if (button = GLFW_MOUSE_BUTTON_LEFT ∧ Int.land mods GLFW_MOD_CONTROL ≠ 0)
      ∨ button = GLFW_MOUSE_BUTTON_MIDDLE then
    let npos := E.cursor_to_ndc pos s.window_size
    if action = GLFW_PRESS then call_begin s s.cam.view_matrix npos Mode.PANNING
    else if action = GLFW_RELEASE then call_end s
    else s
  else if button = GLFW_MOUSE_BUTTON_LEFT then
    let npos := E.cursor_to_ndc pos s.window_size
    if action = GLFW_PRESS then call_begin s s.cam.view_matrix npos Mode.ROTATING
    else if action = GLFW_RELEASE then call_end s
    else s
  else s

/-- The function `motion(window, x, y)` of `main.cpp`, lines 128-135.  The one call
`tb.update(npos)` gives the matrix stored in `cam.view_matrix` and the trackball after the
call. -/
def motion (s : Host E) (x y : E.double) : Host E :=
  if !s.tb.is_tracking then s
  else
    let npos := E.cursor_to_ndc (x, y) s.window_size
    { s with
      cam := { s.cam with view_matrix := s.tb.update E.trackball_math npos }
      tb := s.tb.updated E.trackball_math npos
      calls := s.calls ++ [⟨s.tb.is_tracking, Call.update npos⟩] }

/-- What the event loop of `main`, lines 185-190, delivers: the four registered callbacks
and the per-frame `update()`. -/
inductive Event (E : Env) where
  | reshape (width height : Int)
  | keyboard (key scancode action mods : Int)
  | mouse (pos : E.double × E.double) (button action mods : Int)
  | motion (x y : E.double)
  | frame

/-- One event handled by its callback. -/
def step (s : Host E) : Event E → Host E
  | Event.reshape width height => reshape s width height
  | Event.keyboard key scancode action mods => keyboard s key scancode action mods
  | Event.mouse pos button action mods => mouse s pos button action mods
  | Event.motion x y => motion s x y
  | Event.frame => update s

/-- A sequence of events handled in order. -/
def run (s : Host E) (es : List (Event E)) : Host E := es.foldl step s

end callbacks

/-! ## Reading the call trace and the modifier bits -/

/-- Whether a recorded call is a `tb.begin`. -/
def Call.is_begin {vec2 mat4 : Type} : Call vec2 mat4 → Bool
  | Call.begin _ _ _ => true
  | _ => false

/-- Whether, in a call trace, every recorded `tb.begin` was made while
the controller was Idle. -/
def begins_idle {vec2 mat4 : Type} (calls : List (Logged vec2 mat4)) : Prop :=
  ∀ c ∈ calls, c.call.is_begin = true → c.tracking = false

/-- Whether the test `mods & GLFW_MOD_SHIFT` of `mouse` succeeds: Shift is held. -/
def shift_held (mods : Int) : Prop := Int.land mods GLFW_MOD_SHIFT ≠ 0

/-- Whether the test `mods & GLFW_MOD_CONTROL` of `mouse` succeeds: Control is held. -/
def control_held (mods : Int) : Prop := Int.land mods GLFW_MOD_CONTROL ≠ 0

instance (mods : Int) : Decidable (shift_held mods) := by unfold shift_held; infer_instance

instance (mods : Int) : Decidable (control_held mods) := by unfold control_held; infer_instance

/-- Whether `button` is one of the three buttons `mouse` reacts to. -/
def tracked_button (button : Int) : Bool :=
  decide (button = GLFW_MOUSE_BUTTON_LEFT ∨ button = GLFW_MOUSE_BUTTON_RIGHT
    ∨ button = GLFW_MOUSE_BUTTON_MIDDLE)

/-- The mode of a press as the specification words it: zooming for the right button or the
left button with Shift; panning for the middle button or the left button with Control and
without Shift; rotating for the left button with neither; no session for another button. -/
def stated_mode (button mods : Int) : Option Mode :=
  if button = GLFW_MOUSE_BUTTON_RIGHT ∨ (button = GLFW_MOUSE_BUTTON_LEFT ∧ shift_held mods) then
    some Mode.ZOOMING
  else if button = GLFW_MOUSE_BUTTON_MIDDLE
      ∨ (button = GLFW_MOUSE_BUTTON_LEFT ∧ control_held mods ∧ ¬ shift_held mods) then
    some Mode.PANNING
  else if button = GLFW_MOUSE_BUTTON_LEFT ∧ ¬ shift_held mods ∧ ¬ control_held mods then
    some Mode.ROTATING
  else none

/-- Whether, in a sequence of events, no left, right or middle button is pressed while an
earlier press of one of them has not been released yet; `down` tells whether such a press
is outstanding at the start. -/
def one_at_a_time {E : Env} : Bool → List (Event E) → Bool
  | _, [] => true
  | down, Event.mouse _ button action _ :: es =>
      if tracked_button button then
        if action = GLFW_PRESS then !down && one_at_a_time true es
        else if action = GLFW_RELEASE then one_at_a_time false es
        else one_at_a_time down es
      else one_at_a_time down es
  | down, _ :: es => one_at_a_time down es

/-! ## A concrete instance of the missing headers -/

/-- A camera on a line, for evaluating the callbacks on concrete inputs: points and view
matrices are integers, the view matrix of `look_at` is the translation by `-eye`, every
mode of the trackball translates the captured view matrix by the cursor displacement (the
horizontal one when rotating or panning, the vertical one when zooming), so that a zero
displacement gives back the captured matrix.  Cursor positions are whole pixels and NDC
positions are scaled by the window size. -/
@[reducible] def lineEnv : Env where
  vec2 := Int × Int
  vec3 := Int
  mat4 := Int
  double := Int
  cursor_to_ndc := fun p ws => (2 * p.1 - ws.x, ws.y - 2 * p.2)
  perspective := fun _ _ _ _ => 0
  look_at := fun eye _ _ => -eye
  trackball_math := fun mode v0 m0 m =>
    match mode with
    | Mode.ZOOMING => v0 + (m.2 - m0.2)
    | _ => v0 + (m.1 - m0.1)
  camera_default :=
    { eye := 300, target := 0, up := 1
      fovy := float.fin false (3 / 4), aspect_ratio := float.fin false 1
      dNear := float.fin false 1, dFar := float.fin false 1000
      view_matrix := -300, projection_matrix := 0 }
  mat4_default := 0
  vec2_default := (0, 0)
  cg_default_window_size := ⟨800, 600⟩

/-- The line camera during a drag: the left button was pressed, without modifiers, at the
centre of the 800 by 600 window. -/
def dragging : Host lineEnv :=
  run (Host.init lineEnv) [Event.mouse (400, 300) GLFW_MOUSE_BUTTON_LEFT GLFW_PRESS 0]

/-- The line camera after a drag: the press of `dragging`, a motion to pixel (600, 300)
and the release of the button. -/
def released : Host lineEnv :=
  run dragging [Event.motion 600 300,
    Event.mouse (600, 300) GLFW_MOUSE_BUTTON_LEFT GLFW_RELEASE 0]

/-! ## Theorems -/

section theorems

variable {E : Env}

/-- C1: while the trackball is not tracking, the motion handler changes nothing of the host
state: `cam.view_matrix` is exactly what it was and no `tb.update` call (no call at all) is
added to the trace. -/
theorem motion_idle_noop (s : Host E) (x y : E.double) (h : s.tb.is_tracking = false) :
    motion s x y = s
      ∧ (motion s x y).cam.view_matrix = s.cam.view_matrix
      ∧ (motion s x y).calls = s.calls := by
  have : motion s x y = s := by simp [motion, h]
  simp [this]

theorem motion_idle_noop_witness :
    released.tb.is_tracking = false
      ∧ motion released 10 20 = released
      ∧ (motion released 10 20).cam.view_matrix = released.cam.view_matrix
      ∧ (motion released 10 20).calls = released.calls :=
  ⟨rfl, motion_idle_noop released 10 20 rfl⟩

/-- C2: for the left, right and middle button and any modifiers, a RELEASE event makes
exactly one trackball call, `tb.end()`, after which the controller is Idle, and a PRESS
event makes exactly one trackball call, `tb.begin` with the current `cam.view_matrix` and
the NDC position of the cursor. -/
theorem mouse_release_ends_press_begins (s : Host E) (pos : E.double × E.double)
    (button mods : Int)
    (hb : button = GLFW_MOUSE_BUTTON_LEFT ∨ button = GLFW_MOUSE_BUTTON_RIGHT
      ∨ button = GLFW_MOUSE_BUTTON_MIDDLE) :
    ((mouse s pos button GLFW_RELEASE mods).calls
          = s.calls ++ [⟨s.tb.is_tracking, Call.end_⟩]
        ∧ (mouse s pos button GLFW_RELEASE mods).tb = s.tb.end_
        ∧ (mouse s pos button GLFW_RELEASE mods).tb.is_tracking = false)
      ∧ ∃ mode : Mode,
          (mouse s pos button GLFW_PRESS mods).calls
            = s.calls ++ [⟨s.tb.is_tracking,
                Call.begin s.cam.view_matrix (E.cursor_to_ndc pos s.window_size) mode⟩]
          ∧ (mouse s pos button GLFW_PRESS mods).tb
            = s.tb.begin s.cam.view_matrix (E.cursor_to_ndc pos s.window_size) mode := by
  have hrel : mouse s pos button GLFW_RELEASE mods = call_end s := by
    unfold mouse
    rcases hb with h | h | h <;> subst h <;> simp [GLFW_RELEASE, GLFW_PRESS,
      GLFW_MOUSE_BUTTON_LEFT, GLFW_MOUSE_BUTTON_RIGHT, GLFW_MOUSE_BUTTON_MIDDLE]
  refine ⟨?_, ?_⟩
  · rw [hrel]
    exact ⟨rfl, rfl, rfl⟩
  · unfold mouse
    rcases hb with h | h | h <;> subst h <;> simp only [GLFW_PRESS,
      GLFW_MOUSE_BUTTON_LEFT, GLFW_MOUSE_BUTTON_RIGHT, GLFW_MOUSE_BUTTON_MIDDLE] <;>
      split_ifs <;> first
        | exact ⟨Mode.ZOOMING, rfl, rfl⟩
        | exact ⟨Mode.PANNING, rfl, rfl⟩
        | exact ⟨Mode.ROTATING, rfl, rfl⟩
        | simp_all

theorem mouse_release_ends_press_begins_witness :
    ((mouse dragging (600, 300) GLFW_MOUSE_BUTTON_LEFT GLFW_RELEASE GLFW_MOD_SHIFT).calls
          = dragging.calls ++ [⟨dragging.tb.is_tracking, Call.end_⟩]
        ∧ (mouse dragging (600, 300) GLFW_MOUSE_BUTTON_LEFT GLFW_RELEASE GLFW_MOD_SHIFT).tb
          = dragging.tb.end_
        ∧ (mouse dragging (600, 300) GLFW_MOUSE_BUTTON_LEFT GLFW_RELEASE
            GLFW_MOD_SHIFT).tb.is_tracking = false)
      ∧ ∃ mode : Mode,
          (mouse dragging (600, 300) GLFW_MOUSE_BUTTON_LEFT GLFW_PRESS GLFW_MOD_SHIFT).calls
            = dragging.calls ++ [⟨dragging.tb.is_tracking,
                Call.begin dragging.cam.view_matrix
                  (lineEnv.cursor_to_ndc (600, 300) dragging.window_size) mode⟩]
          ∧ (mouse dragging (600, 300) GLFW_MOUSE_BUTTON_LEFT GLFW_PRESS GLFW_MOD_SHIFT).tb
            = dragging.tb.begin dragging.cam.view_matrix
                (lineEnv.cursor_to_ndc (600, 300) dragging.window_size) mode :=
  mouse_release_ends_press_begins dragging (600, 300) GLFW_MOUSE_BUTTON_LEFT GLFW_MOD_SHIFT
    (Or.inl rfl)

theorem keyboard_cam (s : Host E) (key scancode action mods : Int) :
    (keyboard s key scancode action mods).cam
      = if key = GLFW_KEY_Z ∧ action = GLFW_PRESS then E.camera_default else s.cam := by
  unfold keyboard
  by_cases ha : action = GLFW_PRESS
  · by_cases hz : key = GLFW_KEY_Z
    · subst hz
      simp [ha, GLFW_KEY_Z, GLFW_KEY_ESCAPE, GLFW_KEY_Q, GLFW_KEY_H, GLFW_KEY_F1]
    · simp only [ha, hz, if_true, if_false, false_and]
      split_ifs <;> rfl
  · simp [ha]

/-- C6: the keyboard handler sets `cam` to the default-constructed `camera()` on key Z with
action PRESS, and leaves `cam` as it is for every other key and for every other action. -/
theorem keyboard_resets_cam (s : Host E) (key scancode action mods : Int) :
    (keyboard s GLFW_KEY_Z scancode GLFW_PRESS mods).cam = E.camera_default
      ∧ (keyboard s key scancode action mods).cam
        = if key = GLFW_KEY_Z ∧ action = GLFW_PRESS then E.camera_default else s.cam := by
  refine ⟨?_, keyboard_cam s key scancode action mods⟩
  rw [keyboard_cam]
  simp

theorem mouse_eq (s : Host E) (pos : E.double × E.double) (button action mods : Int) :
    (mouse s pos button action mods
        = match stated_mode button mods with
          | none => s
          | some mode =>
              if action = GLFW_PRESS then
                call_begin s s.cam.view_matrix (E.cursor_to_ndc pos s.window_size) mode
              else if action = GLFW_RELEASE then call_end s
              else s)
      ∧ (stated_mode button mods = none ↔ tracked_button button = false) := by
  unfold mouse stated_mode tracked_button shift_held control_held
  by_cases hl : button = GLFW_MOUSE_BUTTON_LEFT
  · subst hl
    by_cases hs : Int.land mods GLFW_MOD_SHIFT = 0 <;>
      by_cases hc : Int.land mods GLFW_MOD_CONTROL = 0 <;>
      simp [hs, hc, GLFW_MOUSE_BUTTON_LEFT, GLFW_MOUSE_BUTTON_RIGHT, GLFW_MOUSE_BUTTON_MIDDLE]
  · by_cases hr : button = GLFW_MOUSE_BUTTON_RIGHT
    · subst hr
      simp [GLFW_MOUSE_BUTTON_LEFT, GLFW_MOUSE_BUTTON_RIGHT, GLFW_MOUSE_BUTTON_MIDDLE]
    · by_cases hm : button = GLFW_MOUSE_BUTTON_MIDDLE
      · subst hm
        simp [GLFW_MOUSE_BUTTON_LEFT, GLFW_MOUSE_BUTTON_RIGHT, GLFW_MOUSE_BUTTON_MIDDLE]
      · simp [hl, hr, hm]

/-- C8: on a PRESS the handler `mouse` passes to `tb.begin` the mode the specification
states for the button and the modifiers (zooming, panning or rotating): the trace grows by
exactly that one `tb.begin` call and the trackball is the one after that call.  No mode is
stated exactly for the buttons other than left, right and middle, and for those the handler
leaves the host state, trace and trackball included, as it is for every action, so that
neither `tb.begin` nor `tb.end` is called. -/
theorem mouse_mode (s : Host E) (pos : E.double × E.double) (button action mods : Int) :
    ((mouse s pos button GLFW_PRESS mods).calls
        = s.calls ++
          (match stated_mode button mods with
           | some mode =>
               [⟨s.tb.is_tracking,
                 Call.begin s.cam.view_matrix (E.cursor_to_ndc pos s.window_size) mode⟩]
           | none => []))
      ∧ ((mouse s pos button GLFW_PRESS mods).tb
        = (match stated_mode button mods with
           | some mode => s.tb.begin s.cam.view_matrix (E.cursor_to_ndc pos s.window_size) mode
           | none => s.tb))
      ∧ (stated_mode button mods = none ↔
          (button ≠ GLFW_MOUSE_BUTTON_LEFT ∧ button ≠ GLFW_MOUSE_BUTTON_RIGHT
            ∧ button ≠ GLFW_MOUSE_BUTTON_MIDDLE))
      ∧ (stated_mode button mods = none →
          mouse s pos button action mods = s
            ∧ (mouse s pos button action mods).calls = s.calls
            ∧ (mouse s pos button action mods).tb = s.tb) := by
  obtain ⟨hp, _⟩ := mouse_eq s pos button GLFW_PRESS mods
  obtain ⟨ha, hn⟩ := mouse_eq s pos button action mods
  have hb : tracked_button button = false ↔
      (button ≠ GLFW_MOUSE_BUTTON_LEFT ∧ button ≠ GLFW_MOUSE_BUTTON_RIGHT
        ∧ button ≠ GLFW_MOUSE_BUTTON_MIDDLE) := by
    simp [tracked_button]
  refine ⟨?_, ?_, hn.trans hb, ?_⟩
  · rw [hp]
    cases stated_mode button mods with
    | none => simp
    | some mode => simp [call_begin]
  · rw [hp]
    cases stated_mode button mods with
    | none => rfl
    | some mode => simp [call_begin]
  · intro h
    rw [h] at ha
    simp only at ha
    rw [ha]
    exact ⟨rfl, rfl, rfl⟩

theorem mouse_mode_witness :
    stated_mode 3 GLFW_MOD_SHIFT = none
      ∧ stated_mode GLFW_MOUSE_BUTTON_LEFT (Int.land 3 GLFW_MOD_CONTROL) = some Mode.PANNING
      ∧ mouse dragging (600, 300) 3 GLFW_PRESS GLFW_MOD_SHIFT = dragging
      ∧ (mouse dragging (600, 300) 3 GLFW_PRESS GLFW_MOD_SHIFT).calls = dragging.calls
      ∧ (mouse dragging (600, 300) 3 GLFW_PRESS GLFW_MOD_SHIFT).tb = dragging.tb :=
  ⟨by decide, by decide,
    (mouse_mode dragging (600, 300) 3 GLFW_PRESS GLFW_MOD_SHIFT).2.2.2 (by decide)⟩

theorem mouse_cam (s : Host E) (pos : E.double × E.double) (button action mods : Int) :
    (mouse s pos button action mods).cam = s.cam := by
  unfold mouse
  split_ifs <;> rfl

/-- C9: the mouse-button handler leaves `cam` as it is, for every button, action and
modifier combination; hence after a press followed by a release, with no motion event in
between, `cam.view_matrix` is what it was before the press. -/
theorem mouse_keeps_cam (s : Host E) (pos pos2 : E.double × E.double)
    (button action mods button2 mods2 : Int) :
    (mouse s pos button action mods).cam = s.cam
      ∧ (mouse (mouse s pos button GLFW_PRESS mods) pos2 button2 GLFW_RELEASE mods2).cam.view_matrix
        = s.cam.view_matrix := by
  refine ⟨mouse_cam s pos button action mods, ?_⟩
  rw [mouse_cam, mouse_cam]

theorem keyboard_tb (s : Host E) (key scancode action mods : Int) :
    (keyboard s key scancode action mods).tb = s.tb
      ∧ (keyboard s key scancode action mods).calls = s.calls
      ∧ (keyboard s key scancode action mods).window_size = s.window_size := by
  unfold keyboard
  split_ifs <;> exact ⟨rfl, rfl, rfl⟩

/-- C10: the keyboard handler leaves the trackball as it is (the tracking flag and the
captured session state) and makes no trackball call; in particular Z resets the camera
and leaves the session as it is, so that during an active session the next motion event
replaces the reset `cam.view_matrix` by `tb.update(npos)`. -/
theorem keyboard_keeps_session (s : Host E) (key scancode action mods : Int) (x y : E.double) :
    ((keyboard s key scancode action mods).tb = s.tb
        ∧ (keyboard s key scancode action mods).tb.is_tracking = s.tb.is_tracking
        ∧ (keyboard s key scancode action mods).calls = s.calls)
      ∧ (keyboard s GLFW_KEY_Z scancode GLFW_PRESS mods).cam.view_matrix
        = E.camera_default.view_matrix
      ∧ (motion (keyboard s GLFW_KEY_Z scancode GLFW_PRESS mods) x y).cam.view_matrix
        = (if s.tb.is_tracking then
            s.tb.update E.trackball_math (E.cursor_to_ndc (x, y) s.window_size)
          else E.camera_default.view_matrix) := by
  obtain ⟨h1, h2, _⟩ := keyboard_tb s key scancode action mods
  obtain ⟨k1, _, k3⟩ := keyboard_tb s GLFW_KEY_Z scancode GLFW_PRESS mods
  have hc : (keyboard s GLFW_KEY_Z scancode GLFW_PRESS mods).cam = E.camera_default := by
    rw [keyboard_cam]
    simp
  refine ⟨⟨h1, by rw [h1], h2⟩, by rw [hc], ?_⟩
  cases h : s.tb.is_tracking <;> simp [motion, k1, k3, h, hc]

theorem keyboard_keeps_session_witness :
    dragging.tb.is_tracking = true
      ∧ (keyboard dragging GLFW_KEY_Z 0 GLFW_PRESS 0).tb = dragging.tb
      ∧ (keyboard dragging GLFW_KEY_Z 0 GLFW_PRESS 0).cam.view_matrix = -300
      ∧ (motion (keyboard dragging GLFW_KEY_Z 0 GLFW_PRESS 0) 600 300).cam.view_matrix = 100 :=
  ⟨rfl, (keyboard_keeps_session dragging GLFW_KEY_Z 0 GLFW_PRESS 0 600 300).1.1,
    (keyboard_keeps_session dragging GLFW_KEY_Z 0 GLFW_PRESS 0 600 300).2.1.trans rfl,
    (keyboard_keeps_session dragging GLFW_KEY_Z 0 GLFW_PRESS 0 600 300).2.2.trans rfl⟩

theorem motion_tb (s : Host E) (x y : E.double) :
    ((motion s x y).tb.mode = s.tb.mode
        ∧ (motion s x y).tb.view_matrix0 = s.tb.view_matrix0
        ∧ (motion s x y).tb.m0 = s.tb.m0)
      ∧ (motion s x y).tb.is_tracking = s.tb.is_tracking
      ∧ (motion s x y).window_size = s.window_size := by
  unfold motion
  split_ifs <;> exact ⟨⟨rfl, rfl, rfl⟩, rfl, rfl⟩

/-- Sanity of the modelled trackball: once a session has ended, `update` returns the matrix
that the last `update` of the session returned, whatever the position. -/
theorem trackball_end_update {vec2 mat4 : Type} (math : Mode → mat4 → vec2 → vec2 → mat4)
    (tb : trackball vec2 mat4) (m p : vec2) :
    (tb.updated math m).end_.update math p = tb.update math m := rfl

/-- C4: during an active session the motion handler stores in `cam.view_matrix` the matrix
that the mode semantics gives for the mode, view matrix and position captured at the press
and the current cursor position; it leaves the captured state and the window size as they
are, the trackball changing only in its last-known view matrix, which becomes the stored
one; so `motion(p1)` followed by `motion(p2)` leaves the view matrix of `motion(p2)` alone,
and handling `motion(p)` twice leaves the one of handling it once. -/
theorem motion_from_capture (s : Host E) (mode : Mode) (x1 y1 x2 y2 : E.double)
    (h : s.tb.mode = some mode) :
    (motion s x2 y2).cam.view_matrix
        = E.trackball_math mode s.tb.view_matrix0 s.tb.m0
            (E.cursor_to_ndc (x2, y2) s.window_size)
      ∧ ((motion s x2 y2).tb = { s.tb with last := (motion s x2 y2).cam.view_matrix }
        ∧ (motion s x2 y2).tb.mode = s.tb.mode
        ∧ (motion s x2 y2).tb.view_matrix0 = s.tb.view_matrix0
        ∧ (motion s x2 y2).tb.m0 = s.tb.m0
        ∧ (motion s x2 y2).window_size = s.window_size)
      ∧ (motion (motion s x1 y1) x2 y2).cam.view_matrix = (motion s x2 y2).cam.view_matrix
      ∧ (motion (motion s x2 y2) x2 y2).cam.view_matrix = (motion s x2 y2).cam.view_matrix := by
  have key : ∀ (t : Host E) (x y : E.double), t.tb.mode = s.tb.mode →
      t.tb.view_matrix0 = s.tb.view_matrix0 → t.tb.m0 = s.tb.m0 →
      t.window_size = s.window_size →
      (motion t x y).cam.view_matrix
        = E.trackball_math mode s.tb.view_matrix0 s.tb.m0
            (E.cursor_to_ndc (x, y) s.window_size) := by
    intro t x y e1 e2 e3 e4
    have ht : t.tb.is_tracking = true := by simp [trackball.is_tracking, e1, h]
    simp [motion, e1, e2, e3, e4, ht, trackball.update, h]
  have hs : s.tb.is_tracking = true := by simp [trackball.is_tracking, h]
  have frame := motion_tb s x2 y2
  have frame1 := motion_tb s x1 y1
  refine ⟨key s x2 y2 rfl rfl rfl rfl,
    ⟨?_, frame.1.1, frame.1.2.1, frame.1.2.2, frame.2.2⟩, ?_, ?_⟩
  · simp [motion, hs, trackball.updated]
  · rw [key _ x2 y2 frame1.1.1 frame1.1.2.1 frame1.1.2.2 frame1.2.2,
      key s x2 y2 rfl rfl rfl rfl]
  · rw [key _ x2 y2 frame.1.1 frame.1.2.1 frame.1.2.2 frame.2.2, key s x2 y2 rfl rfl rfl rfl]

theorem motion_from_capture_witness :
    dragging.tb.mode = some Mode.ROTATING
      ∧ (motion dragging 600 300).cam.view_matrix = 100
      ∧ (motion (motion dragging 500 200) 600 300).cam.view_matrix
        = (motion dragging 600 300).cam.view_matrix
      ∧ (motion (motion dragging 600 300) 600 300).cam.view_matrix
        = (motion dragging 600 300).cam.view_matrix :=
  ⟨rfl, (motion_from_capture dragging Mode.ROTATING 500 200 600 300 rfl).1.trans rfl,
    (motion_from_capture dragging Mode.ROTATING 500 200 600 300 rfl).2.2⟩

theorem float.expo_spec (n d : Nat) : ∀ (fuel : Nat) (e : Int),
    e - fuel ≤ float.expo fuel e n d
      ∧ (float.le_pow2 (float.expo fuel e n d) n d = true ∨ float.expo fuel e n d = e - fuel) := by
  intro fuel
  induction fuel with
  | zero => intro e; simp [float.expo]
  | succ f ih =>
    intro e
    unfold float.expo
    by_cases h : float.le_pow2 e n d = true
    · rw [if_pos h]
      refine ⟨?_, Or.inl h⟩
      push_cast; omega
    · rw [if_neg h]
      obtain ⟨h1, h2⟩ := ih (e - 1)
      refine ⟨?_, ?_⟩
      · push_cast; omega
      · rcases h2 with h2 | h2
        · exact Or.inl h2
        · right; rw [h2]; push_cast; omega

theorem float.pow2_cast (z : Int) :
    ((2 ^ z.toNat : Nat) : ℚ) / ((2 ^ (-z).toNat : Nat) : ℚ) = (2 : ℚ) ^ z := by
  obtain ⟨k, rfl | rfl⟩ := Int.eq_nat_or_neg z
  · simp
  · simp

theorem float.le_pow2_iff (e : Int) (n d : Nat) (hd : 0 < d) :
    float.le_pow2 e n d = true ↔ (2 : ℚ) ^ e ≤ (n : ℚ) / d := by
  have hD : (0 : ℚ) < ((2 ^ (-e).toNat : Nat) : ℚ) := by positivity
  have hd2 : (0 : ℚ) < (d : ℚ) := by exact_mod_cast hd
  rw [← float.pow2_cast e, div_le_div_iff₀ hD hd2]
  unfold float.le_pow2
  rw [decide_eq_true_iff]
  constructor
  · intro h
    have : ((d * 2 ^ e.toNat : Nat) : ℚ) ≤ ((n * 2 ^ (-e).toNat : Nat) : ℚ) := by exact_mod_cast h
    push_cast at this ⊢
    linarith
  · intro h
    have : ((d * 2 ^ e.toNat : Nat) : ℚ) ≤ ((n * 2 ^ (-e).toNat : Nat) : ℚ) := by
      push_cast at h ⊢
      linarith
    exact_mod_cast this

theorem float.nearest_even_bounds (num den : Nat) :
    num / den ≤ float.nearest_even num den ∧ float.nearest_even num den ≤ num / den + 1 := by
  unfold float.nearest_even
  split_ifs <;> omega

/-- Rounding a magnitude in the normal range of binary32 does not overflow and changes it by
at most the fraction `2 ^ (-23)` of itself. -/
theorem float.round_mag_bounds (n d : Nat) (hd : 0 < d)
    (hlo : (2 : ℚ) ^ (-126 : ℤ) ≤ (n : ℚ) / d) (hhi : (n : ℚ) / d ≤ 2 ^ (126 : ℕ)) :
    ∃ v : ℚ, float.round_mag n d = some v
      ∧ (n : ℚ) / d - (n : ℚ) / d / 2 ^ (23 : ℕ) ≤ v
      ∧ v ≤ (n : ℚ) / d + (n : ℚ) / d / 2 ^ (23 : ℕ) := by
  obtain ⟨he1, he2⟩ := float.expo_spec n d 253 127
  unfold float.round_mag
  generalize float.expo 253 127 n d = e at he1 he2
  have hq : (0 : ℚ) < (n : ℚ) / d := lt_of_lt_of_le (by positivity) hlo
  have hE : (2 : ℚ) ^ e ≤ (n : ℚ) / d := by
    rcases he2 with h | h
    · exact (float.le_pow2_iff e n d hd).mp h
    · rw [h]; norm_num at hlo ⊢; exact hlo
  have hc : (2 : ℚ) ^ (e - 23) * 2 ^ (23 : ℕ) ≤ (n : ℚ) / d := by
    have : (2 : ℚ) ^ (e - 23) * 2 ^ (23 : ℕ) = (2 : ℚ) ^ e := by
      rw [zpow_sub₀ (by norm_num : (2 : ℚ) ≠ 0)]
      norm_num
    rw [this]; exact hE
  generalize e - 23 = c at hc
  have hcpos : (0 : ℚ) < (2 : ℚ) ^ c := by positivity
  have hUD := float.pow2_cast c
  unfold float.round_at
  generalize hU : 2 ^ c.toNat = U at hUD
  generalize hD : 2 ^ (-c).toNat = D at hUD
  have hUpos : 0 < U := by rw [← hU]; positivity
  have hDpos : 0 < D := by rw [← hD]; positivity
  have hUq : (0 : ℚ) < (U : ℚ) := by exact_mod_cast hUpos
  have hDq : (0 : ℚ) < (D : ℚ) := by exact_mod_cast hDpos
  have hdq : (0 : ℚ) < (d : ℚ) := by exact_mod_cast hd
  obtain ⟨hb1, hb2⟩ := float.nearest_even_bounds (n * D) (d * U)
  generalize float.nearest_even (n * D) (d * U) = m1 at hb1 hb2
  have hden : 0 < d * U := Nat.mul_pos hd hUpos
  have hm_lo : n * D < (m1 + 1) * (d * U) := by
    have := Nat.lt_succ_of_le hb1
    have h2 := (Nat.div_lt_iff_lt_mul hden).mp this
    simpa [Nat.succ_eq_add_one] using h2
  have hm_hi : (m1 - 1) * (d * U) ≤ n * D := by
    have : m1 - 1 ≤ n * D / (d * U) := Nat.sub_le_of_le_add hb2
    exact (Nat.le_div_iff_mul_le hden).mp this
  have hv : ((m1 * U : Nat) : ℚ) / (D : ℚ) = (m1 : ℚ) * (2 : ℚ) ^ c := by
    rw [← hUD]; push_cast; ring
  have hqc : (n : ℚ) / d = ((n : ℚ) * D / (d * U)) * (2 : ℚ) ^ c := by
    rw [← hUD]; field_simp; ring
  have h_up : (m1 : ℚ) * (2 : ℚ) ^ c ≤ (n : ℚ) / d + (2 : ℚ) ^ c := by
    have h1 : ((m1 : ℚ) - 1) * (d * U) ≤ (n : ℚ) * D := by
      rcases Nat.eq_zero_or_pos m1 with h0 | h0
      · subst h0
        have h3 : (0 : ℚ) ≤ (n : ℚ) * D := mul_nonneg (Nat.cast_nonneg _) (Nat.cast_nonneg _)
        have h4 : (0 : ℚ) ≤ (d : ℚ) * U := mul_nonneg (Nat.cast_nonneg _) (Nat.cast_nonneg _)
        simp only [Nat.cast_zero, zero_sub]
        linarith
      · have : ((((m1 - 1) * (d * U) : Nat)) : ℚ) ≤ ((n * D : Nat) : ℚ) := by
          exact_mod_cast hm_hi
        push_cast [Nat.cast_sub h0] at this
        linarith
    have h2 : (m1 : ℚ) - 1 ≤ (n : ℚ) * D / (d * U) := by
      rw [le_div_iff₀ (by positivity)]; exact h1
    rw [hqc]; nlinarith
  have h_dn : (n : ℚ) / d - (2 : ℚ) ^ c ≤ (m1 : ℚ) * (2 : ℚ) ^ c := by
    have h1 : (n : ℚ) * D ≤ ((m1 : ℚ) + 1) * (d * U) := by
      have : ((n * D : Nat) : ℚ) ≤ (((m1 + 1) * (d * U) : Nat) : ℚ) := by
        exact_mod_cast hm_lo.le
      push_cast at this
      linarith
    have h2 : (n : ℚ) * D / (d * U) ≤ (m1 : ℚ) + 1 := by
      rw [div_le_iff₀ (by positivity)]; exact h1
    rw [hqc]; nlinarith
  have hc2 : (2 : ℚ) ^ c ≤ (n : ℚ) / d / 2 ^ (23 : ℕ) := by
    rw [le_div_iff₀ (by positivity)]; exact hc
  have hsmall : (n : ℚ) / d / 2 ^ (23 : ℕ) ≤ (n : ℚ) / d := by
    rw [div_le_iff₀ (by positivity)]
    have : (1 : ℚ) ≤ 2 ^ (23 : ℕ) := by norm_num
    nlinarith
  have hov : ¬ (2 ^ 128 * D ≤ m1 * U) := by
    intro h
    have h1 : ((2 ^ 128 * D : Nat) : ℚ) ≤ ((m1 * U : Nat) : ℚ) := by exact_mod_cast h
    have h2 : (2 : ℚ) ^ (128 : ℕ) ≤ ((m1 * U : Nat) : ℚ) / (D : ℚ) := by
      rw [le_div_iff₀ hDq]; push_cast at h1 ⊢; linarith
    rw [hv] at h2
    have h3 : (2 : ℚ) ^ (128 : ℕ) = 4 * 2 ^ (126 : ℕ) := by norm_num
    linarith
  rw [if_neg hov]
  refine ⟨_, rfl, ?_, ?_⟩
  · rw [hv]; linarith
  · rw [hv]; linarith

/-- The conversion of a positive `int` is a positive finite `float` within the fraction
`2 ^ (-23)` of the integer. -/
theorem float.ofInt_bounds (i : Int) (h1 : 0 < i) (h2 : i < 2 ^ 31) :
    ∃ v : ℚ, float.ofInt i = float.fin false v
      ∧ (i : ℚ) - (i : ℚ) / 2 ^ (23 : ℕ) ≤ v ∧ v ≤ (i : ℚ) + (i : ℚ) / 2 ^ (23 : ℕ) := by
  have hcast : ((i.natAbs : ℕ) : ℚ) = (i : ℚ) := by
    rw [← Int.cast_natCast, Int.natAbs_of_nonneg h1.le]
  have hi1 : (1 : ℚ) ≤ (i : ℚ) := by exact_mod_cast h1
  have hi2 : (i : ℚ) ≤ 2 ^ (31 : ℕ) := by exact_mod_cast h2.le
  have hq : ((i.natAbs : ℕ) : ℚ) / ((1 : ℕ) : ℚ) = (i : ℚ) := by simp [hcast]
  obtain ⟨v, hv, hlo, hhi⟩ := float.round_mag_bounds i.natAbs 1 Nat.one_pos
    (by rw [hq]; refine le_trans ?_ hi1; norm_num)
    (by rw [hq]; refine le_trans hi2 ?_; norm_num)
  rw [hq] at hlo hhi
  refine ⟨v, ?_, hlo, hhi⟩
  have hneg : decide (i < 0) = false := by simp [h1.le]
  simp [float.ofInt, float.rnd, hv, hneg]

/-- The quotient of two positive finite values whose ratio is in the normal range is a
positive finite `float` within the fraction `2 ^ (-23)` of the exact ratio. -/
theorem float.div_bounds (a b : ℚ) (ha : 0 < a) (hb : 0 < b)
    (hlo : (2 : ℚ) ^ (-126 : ℤ) ≤ a / b) (hhi : a / b ≤ 2 ^ (126 : ℕ)) :
    ∃ v : ℚ, float.div (float.fin false a) (float.fin false b) = float.fin false v
      ∧ a / b - a / b / 2 ^ (23 : ℕ) ≤ v ∧ v ≤ a / b + a / b / 2 ^ (23 : ℕ) := by
  have hq : 0 < a / b := div_pos ha hb
  have hnum : 0 < (a / b).num := Rat.num_pos.mpr hq
  have hcast : (((a / b).num.natAbs : ℕ) : ℚ) / (((a / b).den : ℕ) : ℚ) = a / b := by
    have h2 : (((a / b).num.natAbs : ℕ) : ℚ) = ((a / b).num : ℚ) := by
      rw [← Int.cast_natCast, Int.natAbs_of_nonneg hnum.le]
    rw [h2]
    exact Rat.num_div_den (a / b)
  obtain ⟨v, hv, h1, h2⟩ := float.round_mag_bounds (a / b).num.natAbs (a / b).den
    (a / b).den_pos (by rw [hcast]; exact hlo) (by rw [hcast]; exact hhi)
  rw [hcast] at h1 h2
  refine ⟨v, ?_, h1, h2⟩
  simp [float.div, hb.ne.symm, float.rnd, hv]

theorem reshape_window_size (s : Host E) (width height : Int) :
    (reshape s width height).window_size = ⟨width, height⟩ := rfl

theorem update_reshape_aspect (s : Host E) (width height : Int) :
    (update (reshape s width height)).cam.aspect_ratio
      = float.div (float.ofInt width) (float.ofInt height) := rfl

/-- C5, amended: `reshape` stores every width and height it is given, without validating
them, and `update()` computes `cam.aspect_ratio` as the `float` quotient of their
conversions.  When both are positive `int`s (below `2 ^ 31`), the divisor
`float(window_size.y)` is not zero and the aspect ratio is a finite `float`, strictly
positive, that is `width / height` up to the rounding of the two conversions and of the
division (within the fraction `2 ^ (-21)` of the exact ratio). -/
theorem update_aspect_ratio (s : Host E) (width height : Int) :
    ((reshape s width height).window_size = ⟨width, height⟩
        ∧ (update (reshape s width height)).cam.aspect_ratio
          = float.div (float.ofInt width) (float.ofInt height))
      ∧ (0 < width → width < 2 ^ 31 → 0 < height → height < 2 ^ 31 →
          float.is_zero (float.ofInt (reshape s width height).window_size.y) = false
            ∧ float.is_pos (update (reshape s width height)).cam.aspect_ratio = true
            ∧ ∃ v : ℚ, (update (reshape s width height)).cam.aspect_ratio = float.fin false v
                ∧ 0 < v
                ∧ |v - (width : ℚ) / (height : ℚ)|
                  ≤ (width : ℚ) / (height : ℚ) / 2 ^ (21 : ℕ)) := by
  refine ⟨⟨rfl, rfl⟩, ?_⟩
  intro hw hw2 hh hh2
  obtain ⟨a, ha, ha1, ha2⟩ := float.ofInt_bounds width hw hw2
  obtain ⟨b, hb, hb1, hb2⟩ := float.ofInt_bounds height hh hh2
  have hwq : (1 : ℚ) ≤ (width : ℚ) := by exact_mod_cast hw
  have hhq : (1 : ℚ) ≤ (height : ℚ) := by exact_mod_cast hh
  have hwq2 : (width : ℚ) ≤ 2 ^ (31 : ℕ) := by exact_mod_cast hw2.le
  have hhq2 : (height : ℚ) ≤ 2 ^ (31 : ℕ) := by exact_mod_cast hh2.le
  have e23 : (2 : ℚ) ^ (23 : ℕ) = 8388608 := by norm_num
  have e21 : (2 : ℚ) ^ (21 : ℕ) = 2097152 := by norm_num
  have e31 : (2 : ℚ) ^ (31 : ℕ) = 2147483648 := by norm_num
  rw [e23] at ha1 ha2 hb1 hb2
  rw [e31] at hwq2 hhq2
  have hapos : 0 < a := by linarith
  have hbpos : 0 < b := by linarith
  have hab_lo : (1 : ℚ) / 2 ^ (33 : ℕ) ≤ a / b := by
    rw [div_le_div_iff₀ (by positivity) hbpos]
    norm_num
    linarith
  have hab_hi : a / b ≤ 2 ^ (33 : ℕ) := by
    rw [div_le_iff₀ hbpos]
    norm_num
    linarith
  obtain ⟨v, hv, hv1, hv2⟩ := float.div_bounds a b hapos hbpos
    (le_trans (by norm_num) hab_lo) (le_trans hab_hi (by norm_num))
  rw [e23] at hv1 hv2
  have hasp : (update (reshape s width height)).cam.aspect_ratio = float.fin false v := by
    show float.div (float.ofInt width) (float.ofInt height) = float.fin false v
    rw [ha, hb, hv]
  have habpos : 0 < a / b := div_pos hapos hbpos
  have hvpos : 0 < v := by linarith
  have hbne : b ≠ 0 := hbpos.ne.symm
  refine ⟨?_, ?_, v, hasp, hvpos, ?_⟩
  · show float.is_zero (float.ofInt height) = false
    rw [hb]
    simp [float.is_zero, hbne]
  · rw [hasp]
    simp [float.is_pos, hvpos]
  · have hh0 : (0 : ℚ) < (height : ℚ) := by linarith
    have hw0 : (0 : ℚ) < (width : ℚ) := by linarith
    -- the exact ratio and the ratio of the conversions
    have hr_up : a / b ≤ (width : ℚ) / height * (8388609 / 8388607) := by
      rw [div_mul_eq_mul_div, div_le_div_iff₀ hbpos hh0]
      nlinarith
    have hr_dn : (width : ℚ) / height * (8388607 / 8388609) ≤ a / b := by
      rw [div_mul_eq_mul_div, div_le_div_iff₀ hh0 hbpos]
      nlinarith
    have hr0 : 0 < (width : ℚ) / height := div_pos hw0 hh0
    rw [e21, abs_le]
    constructor <;> nlinarith

theorem update_aspect_ratio_witness :
    (0 : Int) < 800 ∧ (800 : Int) < 2 ^ 31 ∧ (0 : Int) < 600 ∧ (600 : Int) < 2 ^ 31
      ∧ float.is_zero (float.ofInt (reshape (Host.init lineEnv) 800 600).window_size.y) = false
      ∧ float.is_pos (update (reshape (Host.init lineEnv) 800 600)).cam.aspect_ratio = true
      ∧ ∃ v : ℚ, (update (reshape (Host.init lineEnv) 800 600)).cam.aspect_ratio
            = float.fin false v
          ∧ 0 < v
          ∧ |v - ((800 : Int) : ℚ) / ((600 : Int) : ℚ)|
            ≤ ((800 : Int) : ℚ) / ((600 : Int) : ℚ) / 2 ^ (21 : ℕ) :=
  ⟨by decide, by decide, by decide, by decide,
    (update_aspect_ratio (Host.init lineEnv) 800 600).2 (by decide) (by decide) (by decide)
      (by decide)⟩

/-- The `float` model rounds as binary32 does: `float(16777217)` is `16777216`, the quotient
`800 / 600` is stored as `11184811 / 8388608` and `1920 / 1080` as `14913081 / 8388608`. -/
theorem float_rounding_examples :
    float.ofInt 16777217 = float.fin false 16777216
      ∧ float.div (float.ofInt 800) (float.ofInt 600) = float.fin false (11184811 / 8388608)
      ∧ float.div (float.ofInt 1920) (float.ofInt 1080)
        = float.fin false (14913081 / 8388608)
      ∧ (update (reshape (Host.init lineEnv) 800 600)).cam.aspect_ratio
        = float.fin false (11184811 / 8388608) := by
  have h800 : float.div (float.ofInt 800) (float.ofInt 600)
      = float.fin false (11184811 / 8388608) := by decide!
  exact ⟨by decide!, h800, by decide!, h800⟩

/-- C5, as stated, fails: `reshape(window, 0, 0)` stores the zero-size viewport, the divisor
of `update()` is then zero, and the aspect ratio is the NaN of `0/0`, not a positive
number. -/
theorem update_zero_viewport :
    (reshape (Host.init lineEnv) 0 0).window_size = ⟨0, 0⟩
      ∧ float.is_zero (float.ofInt (reshape (Host.init lineEnv) 0 0).window_size.y) = true
      ∧ (update (reshape (Host.init lineEnv) 0 0)).cam.aspect_ratio = float.nan
      ∧ float.is_pos (update (reshape (Host.init lineEnv) 0 0)).cam.aspect_ratio = false := by
  have h0 : float.ofInt 0 = float.fin false 0 := by decide!
  have hnan : (update (reshape (Host.init lineEnv) 0 0)).cam.aspect_ratio = float.nan := by
    rw [update_reshape_aspect, h0]
    decide
  refine ⟨rfl, ?_, hnan, ?_⟩
  · rw [reshape_window_size, h0]
    decide
  · rw [hnan]
    rfl

/-- C7, amended: `update()` recomputes the aspect ratio and the projection matrix, which is
`perspective(cam.fovy, window_size.x / float(window_size.y), cam.dNear, cam.dFar)`, and
leaves every other field of `cam` as it found it: the view matrix is not recomputed from
eye, target and up.  After a motion event the view matrix is the result of `tb.update`
when a session is active and the earlier view matrix otherwise, with eye, target and up as
they were. -/
theorem update_cam (s : Host E) (x y : E.double) :
    (update s).cam
        = { s.cam with
            aspect_ratio := float.div (float.ofInt s.window_size.x) (float.ofInt s.window_size.y)
            projection_matrix := E.perspective s.cam.fovy
              (float.div (float.ofInt s.window_size.x) (float.ofInt s.window_size.y))
              s.cam.dNear s.cam.dFar }
      ∧ (update s).cam.projection_matrix
        = E.perspective (update s).cam.fovy
            (float.div (float.ofInt (update s).window_size.x)
              (float.ofInt (update s).window_size.y))
            (update s).cam.dNear (update s).cam.dFar
      ∧ (update s).cam.view_matrix = s.cam.view_matrix
      ∧ (update (motion s x y)).cam.view_matrix
        = (if s.tb.is_tracking then
            s.tb.update E.trackball_math (E.cursor_to_ndc (x, y) s.window_size)
          else s.cam.view_matrix)
      ∧ (update (motion s x y)).cam.eye = s.cam.eye
      ∧ (update (motion s x y)).cam.target = s.cam.target
      ∧ (update (motion s x y)).cam.up = s.cam.up := by
  refine ⟨rfl, rfl, rfl, ?_, ?_, ?_, ?_⟩ <;>
    cases h : s.tb.is_tracking <;> simp [update, motion, h]

/-- C7, as stated, fails: at program start the view matrix is the look-at matrix of eye,
target and up, and after a press of the left button, a motion event and the per-frame
`update()` it is the matrix of the trackball and no longer the look-at matrix, while the
projection matrix is the recomputed one. -/
theorem update_view_not_look_at :
    (Host.init lineEnv).cam.view_matrix
        = lineEnv.look_at (Host.init lineEnv).cam.eye (Host.init lineEnv).cam.target
            (Host.init lineEnv).cam.up
      ∧ (run (Host.init lineEnv)
          [Event.mouse (400, 300) GLFW_MOUSE_BUTTON_LEFT GLFW_PRESS 0,
           Event.motion 600 300, Event.frame]).cam.view_matrix = 100
      ∧ (run (Host.init lineEnv)
          [Event.mouse (400, 300) GLFW_MOUSE_BUTTON_LEFT GLFW_PRESS 0,
           Event.motion 600 300, Event.frame]).cam.view_matrix
        ≠ lineEnv.look_at
            (run (Host.init lineEnv)
              [Event.mouse (400, 300) GLFW_MOUSE_BUTTON_LEFT GLFW_PRESS 0,
               Event.motion 600 300, Event.frame]).cam.eye
            (run (Host.init lineEnv)
              [Event.mouse (400, 300) GLFW_MOUSE_BUTTON_LEFT GLFW_PRESS 0,
               Event.motion 600 300, Event.frame]).cam.target
            (run (Host.init lineEnv)
              [Event.mouse (400, 300) GLFW_MOUSE_BUTTON_LEFT GLFW_PRESS 0,
               Event.motion 600 300, Event.frame]).cam.up := by
  decide

theorem begins_idle_append {vec2 mat4 : Type} (calls : List (Logged vec2 mat4))
    (c : Logged vec2 mat4) (h : begins_idle calls)
    (hc : c.call.is_begin = true → c.tracking = false) : begins_idle (calls ++ [c]) := by
  intro d hd
  rcases List.mem_append.mp hd with hd | hd
  · exact h d hd
  · rw [List.mem_singleton.mp hd]
    exact hc

theorem run_begins_idle (es : List (Event E)) :
    ∀ (s : Host E) (down : Bool), (down = false → s.tb.is_tracking = false) →
      begins_idle s.calls → one_at_a_time down es = true → begins_idle (run s es).calls := by
  induction es with
  | nil => intro s down _ hs _; exact hs
  | cons e es ih =>
    intro s down hd hs h
    show begins_idle (run (step s e) es).calls
    cases e with
    | reshape width height => exact ih _ down hd hs h
    | frame => exact ih _ down hd hs h
    | keyboard key scancode action mods =>
      obtain ⟨k1, k2, _⟩ := keyboard_tb s key scancode action mods
      refine ih _ down ?_ ?_ h
      · show down = false → (keyboard s key scancode action mods).tb.is_tracking = false
        rw [k1]; exact hd
      · show begins_idle (keyboard s key scancode action mods).calls
        rw [k2]; exact hs
    | motion x y =>
      refine ih _ down ?_ ?_ h
      · show down = false → (motion s x y).tb.is_tracking = false
        rw [(motion_tb s x y).2.1]; exact hd
      · show begins_idle (motion s x y).calls
        unfold motion
        split_ifs
        · exact hs
        · exact begins_idle_append _ _ hs (fun hb => by simp [Call.is_begin] at hb)
    | mouse pos button action mods =>
      obtain ⟨hm, hn⟩ := mouse_eq s pos button action mods
      show begins_idle (run (mouse s pos button action mods) es).calls
      simp only [one_at_a_time] at h
      cases hsm : stated_mode button mods with
      | none =>
        have ht : tracked_button button = false := hn.mp hsm
        rw [hsm] at hm
        simp only [ht] at h
        rw [hm]
        exact ih s down hd hs (by simpa using h)
      | some mode =>
        have ht : tracked_button button = true := by
          cases hb : tracked_button button
          · rw [hn.mpr hb] at hsm; cases hsm
          · rfl
        rw [hsm] at hm
        simp only [ht, if_true] at h
        by_cases hp : action = GLFW_PRESS
        · subst hp
          simp only [if_true, Bool.and_eq_true, Bool.not_eq_true'] at h hm
          rw [hm]
          refine ih _ true (fun hf => by cases hf) ?_ h.2
          exact begins_idle_append _ _ hs (fun _ => hd h.1)
        · by_cases hr : action = GLFW_RELEASE
          · subst hr
            simp only [hp, if_true, if_false] at h hm
            rw [hm]
            refine ih _ false (fun _ => rfl) ?_ h
            exact begins_idle_append _ _ hs (fun hb => by simp [Call.is_begin] at hb)
          · simp only [hp, hr, if_false] at h hm
            rw [hm]
            exact ih s down hd hs h

/-- C3, amended: from program start, in every sequence of events in which no left, right or
middle button is pressed while an earlier press of one of them is unreleased, every
`tb.begin` is called while the controller is Idle. -/
theorem begin_only_idle (es : List (Event E)) (h : one_at_a_time false es = true) :
    ∀ c ∈ (run (Host.init E) es).calls, c.call.is_begin = true → c.tracking = false :=
  run_begins_idle es (Host.init E) false (fun _ => rfl)
    (fun c hc => by cases hc) h

theorem begin_only_idle_witness :
    one_at_a_time false
        ([Event.mouse (400, 300) GLFW_MOUSE_BUTTON_LEFT GLFW_PRESS 0,
          Event.motion 600 300,
          Event.mouse (600, 300) GLFW_MOUSE_BUTTON_LEFT GLFW_RELEASE 0,
          Event.mouse (600, 300) GLFW_MOUSE_BUTTON_RIGHT GLFW_PRESS 0] :
          List (Event lineEnv)) = true
      ∧ ∀ c ∈ (run (Host.init lineEnv)
          [Event.mouse (400, 300) GLFW_MOUSE_BUTTON_LEFT GLFW_PRESS 0,
           Event.motion 600 300,
           Event.mouse (600, 300) GLFW_MOUSE_BUTTON_LEFT GLFW_RELEASE 0,
           Event.mouse (600, 300) GLFW_MOUSE_BUTTON_RIGHT GLFW_PRESS 0]).calls,
          c.call.is_begin = true → c.tracking = false :=
  ⟨by decide, begin_only_idle _ (by decide)⟩

/-- C3, as stated, fails: a press of the right button during a drag with the left button
calls `tb.begin` a second time, while the controller is tracking; `mouse` neither tests
`tb.is_tracking()` nor ends the session of the first press. -/
theorem begin_while_tracking :
    (run (Host.init lineEnv)
        [Event.mouse (400, 300) GLFW_MOUSE_BUTTON_LEFT GLFW_PRESS 0,
         Event.mouse (400, 300) GLFW_MOUSE_BUTTON_RIGHT GLFW_PRESS 0]).calls
      = [⟨false, Call.begin (-300) (0, 0) Mode.ROTATING⟩,
         ⟨true, Call.begin (-300) (0, 0) Mode.ZOOMING⟩]
    ∧ ¬ ∀ c ∈ (run (Host.init lineEnv)
        [Event.mouse (400, 300) GLFW_MOUSE_BUTTON_LEFT GLFW_PRESS 0,
         Event.mouse (400, 300) GLFW_MOUSE_BUTTON_RIGHT GLFW_PRESS 0]).calls,
        c.call.is_begin = true → c.tracking = false := by
  refine ⟨rfl, fun h => ?_⟩
  have hc := h (Logged.mk true (Call.begin (-300) (0, 0) Mode.ZOOMING))
    (List.mem_cons_of_mem _ (List.mem_singleton.mpr rfl)) rfl
  cases hc

end theorems

end TeamProject
